import Mathlib

/-!
# Flowchart editor (`src/src/App.jsx`): graph model, traversal, allocation and persistence

A shallow embedding of the state-carrying parts of the `App` component:

* the adjacency build and the recursive `traverse` inside `simulateFlow`,
  followed by the presentation loop;
* the module-level counter `id` and the handlers `addNode`, `onNodesDelete`,
  `onEdgesDelete`, `onConnect`, `saveFlow`, `loadFlow`.

Conventions of the embedding.

* Node and edge identifiers are JavaScript strings, here `String`.
* The object literal `adjacency = {}` is embedded as an association list of
  its own properties, in creation order; the identifiers produced by the
  editor are decimal numerals, which never name an inherited property.
* The `Set` named `visited` is embedded as a list used only through
  membership (`has`) and insertion (`add`).
* The counter `id` is a JavaScript number holding an integer; it is embedded
  as `Int`, which is exact as long as the value stays below `2 ^ 53`.
* Timers (`setTimeout`, `await`) are not modelled: the presentation loop is
  embedded as the sequence of state-setter calls it performs.
* A handler is embedded together with the render it schedules. A value
  passed to a state setter is evaluated in the handler; a function passed to
  a state setter (an updater) is called by React when the component renders
  next, so the free variables of its body are read at that time.
* `JSON.stringify`, `JSON.parse` and `addEdge` are not defined in the
  component; they are parameters of the embedding (`Host`).
-/

namespace ReactFlow

/-! ## Edges and the adjacency object -/

/-- An edge object: `{ id, source, target, type }`. The seed edge has no `type`. -/
structure Edge where
  id : String
  source : String
  target : String
  type : Option String
deriving DecidableEq, Repr

/-- The record `data.details` of a node. -/
structure Details where
  title : String
  description : String
  imageUrl : String
  videoUrl : String
  extra : String
deriving DecidableEq, Repr

/-- The record `data` of a node. -/
structure NodeData where
  label : String
  shortInfo : String
  details : Details
deriving DecidableEq, Repr

/-- The record `position` of a node. -/
structure Position where
  x : Int
  y : Int
deriving DecidableEq, Repr

/-- The record `style` of a node. -/
structure Style where
  color : String
  padding : Int
  borderRadius : Int
  boxShadow : String
deriving DecidableEq, Repr

/-- A node object as the editor creates it. -/
structure Node where
  id : String
  type : String
  data : NodeData
  position : Position
  className : String
  style : Style
deriving DecidableEq, Repr

/-- The lookup `nodes.find((n) => n.id === nodeId)`. -/
def findNode (nodes : List Node) (nodeId : String) : Option Node :=
  nodes.find? (fun n => decide (n.id = nodeId))

/-- The constant `style` shared by every node literal in the file. -/
def nodeStyle : Style := ⟨"#fff", 10, 8, "0 2px 5px rgba(0,0,0,0.15)"⟩

/-- First entry of `initialNodes`: the start node `'1'`. -/
def startNode : Node :=
  { id := "1", type := "editableNode",
    data := ⟨"Start", "This is the start of the process.",
      ⟨"Start Node - Detailed Info", "This node marks the beginning of the flowchart",
        "/assets/start.jpg", "/assets/start.mp4", "More instructions, links, etc."⟩⟩,
    position := ⟨100, 100⟩, className := "hover-node node-green", style := nodeStyle }

/-- Second entry of `initialNodes`: the node `'2'`. -/
def processNode : Node :=
  { id := "2", type := "editableNode",
    data := ⟨"Process", "This is the next step of the process.",
      ⟨"Second node", "This node marks the second of the flowchart.",
        "/assets/process.jpg", "/assets/process.mp4", "More instructions, links, etc."⟩⟩,
    position := ⟨300, 100⟩, className := "hover-node node-blue", style := nodeStyle }

/-- The constant `initialNodes`. -/
def initialNodes : List Node := [startNode, processNode]

/-- The constant `initialEdges`. -/
def initialEdges : List Edge := [⟨"e1-2", "1", "2", none⟩]

/-- Initial value of the module variable: `let id = 3`. -/
def initialId : Int := 3

/-- The constant `colorClasses`. -/
def colorClasses : List String :=
  ["node-red", "node-yellow", "node-green", "node-blue", "node-purple"]

/-- Array read `colorClasses[i]` inside a template literal: an index outside
the array yields `undefined`, printed as such. -/
def colorClassAt (i : Int) : String :=
  if 0 ≤ i then (colorClasses.get? i.toNat).getD "undefined" else "undefined"

/-- The object `newNode` built in the body of `addNode` from the current value of `id`. -/
def newNode (id : Int) : Node :=
  let colorIndex := id.tmod colorClasses.length
  let className := "hover-node " ++ colorClassAt colorIndex
  { id := toString id,
    type := "editableNode",
    data :=
      { label := "Node " ++ toString id,
        shortInfo := "Short info for node " ++ toString id,
        details :=
          { title := "Node " ++ toString id ++ " - Detailed Info",
            description := "This is a detailed description for node " ++ toString id ++ ".",
            imageUrl := "/assets/node3.jpg",
            videoUrl := "/assets/node3.mp4",
            extra := "Extra content for node " ++ toString id ++ "." } },
    position := ⟨100 + id * 50, 200⟩,
    style := nodeStyle,
    className := className }

/-- The edge literal written inside the `setEdges` updater of `addNode`. Its
template strings read the module variable `id` when the updater function is
called; the argument is the value `id` has at that moment. -/
def connectingEdge (id : Int) (edgeType : String) : Edge :=
  { id := "e" ++ toString (id - 1) ++ "-" ++ toString id,
    source := toString (id - 1),
    target := toString id,
    type := some edgeType }

/-! ## Persistence and the component state -/

/-- The browser store `localStorage`: keys with their text values. -/
abbrev Storage := List (String × String)

/-- The call `localStorage.getItem(key)`; `none` stands for `null`. -/
def Storage.getItem (storage : Storage) (key : String) : Option String :=
  match storage with
  | [] => none
  | (k, v) :: rest => if k = key then some v else Storage.getItem rest key

/-- The call `localStorage.setItem(key, value)`. -/
def Storage.setItem (storage : Storage) (key : String) (value : String) : Storage :=
  match storage with
  | [] => [(key, value)]
  | (k, v) :: rest =>
    if k = key then (k, value) :: rest else (k, v) :: Storage.setItem rest key value

/-- The object `flowData` that `saveFlow` serialises. -/
structure Flow where
  nodes : List Node
  edges : List Edge
deriving DecidableEq, Repr

/-- The value `flow` that `loadFlow` reads its two fields from. A field is
`none` when the decoded value has no such property or holds a falsy value
there, which is when `flow.nodes || []` takes its right-hand side. -/
structure Payload where
  nodes : Option (List Node)
  edges : Option (List Edge)
deriving DecidableEq, Repr

/-- The argument `{ ...params, type: edgeType }` that `onConnect` passes to `addEdge`. -/
structure EdgeParams where
  source : String
  target : String
  type : String
deriving DecidableEq, Repr

/-- Functions the component calls but does not define: `JSON.stringify`,
`JSON.parse` (where `none` stands for a thrown exception, which leaves the
component state as it was) and `addEdge` of the rendering library. -/
structure Host where
  stringify : Flow → String
  parse : String → Option Payload
  addEdge : EdgeParams → List Edge → List Edge

/-- The fixed key under which the flowchart is stored. -/
def storageKey : String := "flowchart"

/-- State of the component between two events: the rendered `nodes`, `edges`
and `edgeType`, the module variable `id`, and the browser store. -/
structure AppState where
  nodes : List Node
  edges : List Edge
  edgeType : String
  id : Int
  storage : Storage
deriving DecidableEq, Repr

/-- State after the module is loaded with a given content of the browser store. -/
def initialState (storage : Storage) : AppState :=
  ⟨initialNodes, initialEdges, "default", initialId, storage⟩

/-- The handler `addNode` followed by the render it schedules.

The body builds `newNode` from the current `id`, queues
`setNodes((nds) => [...nds, newNode])` and `setEdges((eds) => [...eds, {...}])`,
and then executes `id++`. Both setters belong to the same component, so the
second updater is not evaluated inside the `setEdges` call: it is queued and
called in the render that follows the handler, after `id++` has run. The
node was built before the increment and is captured by value; the edge
literal is built when its updater is called and reads the incremented `id`. -/
def addNode (st : AppState) : AppState :=
  let node := newNode st.id
  let nodesUpdater : List Node → List Node := fun nds => nds ++ [node]
  let edgesUpdater : Int → List Edge → List Edge :=
    fun id eds => eds ++ [connectingEdge id st.edgeType]
  let idAfter := st.id + 1
  { st with
    nodes := nodesUpdater st.nodes,
    edges := edgesUpdater idAfter st.edges,
    id := idAfter }

/-- The handler `onNodesDelete`:
`nds.filter((node) => !deletedNodes.find((d) => d.id === node.id))`. -/
def onNodesDelete (deletedNodes : List Node) (st : AppState) : AppState :=
  { st with nodes := st.nodes.filter (fun node => (findNode deletedNodes node.id).isNone) }

/-- The handler `onEdgesDelete`:
`eds.filter((edge) => !deletedEdges.find((d) => d.id === edge.id))`. -/
def onEdgesDelete (deletedEdges : List Edge) (st : AppState) : AppState :=
  { st with
    edges := st.edges.filter
      (fun edge => (deletedEdges.find? (fun d => decide (d.id = edge.id))).isNone) }

/-- The handler `onConnect`: `setEdges((eds) => addEdge({ ...params, type: edgeType }, eds))`. -/
def onConnect (host : Host) (source target : String) (st : AppState) : AppState :=
  { st with edges := host.addEdge ⟨source, target, st.edgeType⟩ st.edges }

/-- The handler `saveFlow`. -/
def saveFlow (host : Host) (st : AppState) : AppState :=
  let flowData : Flow := ⟨st.nodes, st.edges⟩
  { st with storage := st.storage.setItem storageKey (host.stringify flowData) }

/-- The handler `loadFlow`. The test `if (saved)` fails for `null` and for the
empty string. -/
def loadFlow (host : Host) (st : AppState) : AppState :=
  match st.storage.getItem storageKey with
  | none => st
  | some saved =>
    if saved = "" then st
    else
      match host.parse saved with
      | none => st
      | some flow => { st with nodes := flow.nodes.getD [], edges := flow.edges.getD [] }

/-- The events of the editor that change the component state. -/
inductive Action where
  | addNode
  | deleteNodes (deletedNodes : List Node)
  | deleteEdges (deletedEdges : List Edge)
  | connect (source target : String)
  | selectEdgeType (edgeType : String)
  | saveFlow
  | loadFlow
deriving DecidableEq, Repr

/-- The effect of one event. -/
def step (host : Host) (st : AppState) : Action → AppState
  | Action.addNode => addNode st
  | Action.deleteNodes deletedNodes => onNodesDelete deletedNodes st
  | Action.deleteEdges deletedEdges => onEdgesDelete deletedEdges st
  | Action.connect source target => onConnect host source target st
  | Action.selectEdgeType edgeType => { st with edgeType := edgeType }
  | Action.saveFlow => saveFlow host st
  | Action.loadFlow => loadFlow host st

/-- The effect of a sequence of events. -/
def run (host : Host) (st : AppState) (actions : List Action) : AppState :=
  actions.foldl (step host) st

/-- One run of the program: the module is loaded with the store left by
earlier runs, then the events are handled in order. -/
def session (host : Host) (storage : Storage) (actions : List Action) : AppState :=
  run host (initialState storage) actions

/-- Counter values read by the `addNode` calls of a sequence of events, in order. -/
def allocatedCounters (host : Host) : AppState → List Action → List Int
  | _, [] => []
  | st, Action.addNode :: rest => st.id :: allocatedCounters host (addNode st) rest
  | st, a :: rest => allocatedCounters host (step host st a) rest

/-- Identifiers of the nodes created by the `addNode` calls of a sequence of events, in order. -/
def allocatedIds (host : Host) : AppState → List Action → List String
  | _, [] => []
  | st, Action.addNode :: rest => (newNode st.id).id :: allocatedIds host (addNode st) rest
  | st, a :: rest => allocatedIds host (step host st a) rest

/-! ## Notions used to state the properties -/

/-- Value of a decimal digit character. -/
def digitVal (c : Char) : Nat := c.toNat - 48

/-- Value of a decimal numeral read from the left, continuing from `a`. -/
def decimalValue (cs : List Char) (a : Nat) : Nat :=
  cs.foldl (fun a c => a * 10 + digitVal c) a

/-- The graph held after the first `addNode` of a run. -/
def flowAfterFirstAdd : Flow :=
  ⟨(addNode (initialState [])).nodes, (addNode (initialState [])).edges⟩

/-- A host that knows the JSON text of one flow: it prints that flow as `text`
and reads `text` back as that flow; `addEdge` appends the new edge. -/
def singleFlowHost (flow : Flow) (text : String) : Host where
  stringify := fun f => if f = flow then text else "null"
  parse := fun s => if s = text then some ⟨some flow.nodes, some flow.edges⟩ else none
  addEdge := fun p eds =>
    eds ++ [⟨"reactflow__edge-" ++ p.source ++ "-" ++ p.target, p.source, p.target, some p.type⟩]

/-- A host whose `JSON.parse` yields the same payload for every text. -/
def constantHost (payload : Payload) : Host where
  stringify := fun _ => "null"
  parse := fun _ => some payload
  addEdge := fun _ eds => eds

/-! ## The adjacency object -/

theorem digitVal_digitChar (d : Nat) (h : d < 10) : digitVal (Nat.digitChar d) = d := by
  interval_cases d <;> rfl

theorem decimalValue_toDigitsCore :
    ∀ (fuel n : Nat) (ds : List Char), n < fuel →
      decimalValue (Nat.toDigitsCore 10 fuel n ds) 0 = decimalValue ds n := by
  intro fuel
  induction fuel with
  | zero => intro n ds h; exact absurd h (Nat.not_lt_zero _)
  | succ f ih =>
    intro n ds h
    simp only [Nat.toDigitsCore]
    have hd := digitVal_digitChar (n % 10) (Nat.mod_lt _ (by decide))
    by_cases h0 : n / 10 = 0
    · simp only [h0, if_true, decimalValue, List.foldl_cons, hd]
      have : n % 10 = n := by omega
      simp [this]
    · simp only [h0, if_false]
      rw [ih (n / 10) _ (by omega)]
      simp only [decimalValue, List.foldl_cons, hd]
      have : n / 10 * 10 + n % 10 = n := by omega
      rw [this]

theorem decimalValue_repr (n : Nat) : decimalValue (Nat.repr n).data 0 = n := by
  simp only [Nat.repr, Nat.toDigits, List.asString]
  exact decimalValue_toDigitsCore (n + 1) n [] (Nat.lt_succ_self n)

theorem toString_natCast_injective (a b : Nat)
    (h : toString (a : Int) = toString (b : Int)) : a = b := by
  have ha : toString (a : Int) = Nat.repr a := rfl
  have hb : toString (b : Int) = Nat.repr b := rfl
  rw [ha, hb] at h
  have := congrArg (fun s => decimalValue s.data 0) h
  simpa [decimalValue_repr] using this

/-! ## Allocation of node identifiers -/

theorem step_id_of_ne_addNode (host : Host) (st : AppState) (a : Action)
    (h : a ≠ Action.addNode) : (step host st a).id = st.id := by
  cases a with
  | addNode => exact absurd rfl h
  | deleteNodes d => rfl
  | deleteEdges d => rfl
  | connect s t => rfl
  | selectEdgeType e => rfl
  | saveFlow => rfl
  | loadFlow =>
    simp only [step, loadFlow]
    split
    · rfl
    · split
      · rfl
      · split <;> rfl

theorem allocatedCounters_cons_of_ne (host : Host) (st : AppState) (a : Action)
    (rest : List Action) (h : a ≠ Action.addNode) :
    allocatedCounters host st (a :: rest) = allocatedCounters host (step host st a) rest := by
  cases a with
  | addNode => exact absurd rfl h
  | _ => rfl

theorem allocatedIds_cons_of_ne (host : Host) (st : AppState) (a : Action)
    (rest : List Action) (h : a ≠ Action.addNode) :
    allocatedIds host st (a :: rest) = allocatedIds host (step host st a) rest := by
  cases a with
  | addNode => exact absurd rfl h
  | _ => rfl

theorem allocatedCounters_eq (host : Host) :
    ∀ (actions : List Action) (st : AppState),
      allocatedCounters host st actions
        = (List.range (actions.count Action.addNode)).map (fun (i : Nat) => st.id + (i : Int)) := by
  intro actions
  induction actions with
  | nil => intro st; simp [allocatedCounters]
  | cons a rest ih =>
    intro st
    by_cases h : a = Action.addNode
    · subst h
      simp only [allocatedCounters, List.count_cons_self, List.range_succ_eq_map, List.map_cons,
        List.map_map, ih]
      refine congrArg₂ _ (by simp) ?_
      apply List.map_congr_left
      intro i _
      simp only [addNode, Function.comp, Nat.succ_eq_add_one]
      push_cast
      ring
    · rw [allocatedCounters_cons_of_ne host st a rest h, ih, step_id_of_ne_addNode host st a h,
        List.count_cons_of_ne (fun hh => h hh.symm)]

theorem allocatedIds_eq (host : Host) :
    ∀ (actions : List Action) (st : AppState),
      allocatedIds host st actions = (allocatedCounters host st actions).map toString := by
  intro actions
  induction actions with
  | nil => intro st; simp [allocatedIds, allocatedCounters]
  | cons a rest ih =>
    intro st
    by_cases h : a = Action.addNode
    · subst h
      simp only [allocatedIds, allocatedCounters, List.map_cons, ih]
      rfl
    · rw [allocatedIds_cons_of_ne host st a rest h, allocatedCounters_cons_of_ne host st a rest h,
        ih]

/-- C5: in one run of the program, whatever events are interleaved, the
counter values read by the successive `addNode` calls are `3, 4, 5, …`
(each call reads the counter and leaves it one higher, no other event changes
it), hence strictly increasing, and the identifiers given to the new nodes,
their decimal numerals, are pairwise distinct. -/
theorem allocated_ids_strictly_increasing (host : Host) (storage : Storage)
    (actions : List Action) :
    allocatedCounters host (initialState storage) actions
      = (List.range (actions.count Action.addNode)).map (fun (i : Nat) => (3 : Int) + (i : Int)) ∧
    (allocatedCounters host (initialState storage) actions).Pairwise (fun a b => a < b) ∧
    allocatedIds host (initialState storage) actions
      = (allocatedCounters host (initialState storage) actions).map toString ∧
    (allocatedIds host (initialState storage) actions).Nodup ∧
    (∀ st : AppState, (addNode st).id = st.id + 1 ∧
      (addNode st).nodes = st.nodes ++ [newNode st.id] ∧ (newNode st.id).id = toString st.id) := by
  have hc := allocatedCounters_eq host actions (initialState storage)
  have hi := allocatedIds_eq host actions (initialState storage)
  have h3 : (initialState storage).id = 3 := rfl
  rw [h3] at hc
  refine ⟨hc, ?_, hi, ?_, fun st => ⟨rfl, rfl, rfl⟩⟩
  · rw [hc, List.pairwise_map]
    refine (List.pairwise_lt_range _).imp ?_
    intro a b hab
    omega
  · rw [hi, hc, List.map_map]
    refine (List.nodup_range _).map ?_
    intro a b hab
    have e : ∀ i : Nat, ((3 : Int) + (i : Int)) = ((3 + i : Nat) : Int) := fun i => by push_cast; rfl
    simp only [Function.comp, e] at hab
    have := toString_natCast_injective _ _ hab
    omega

/-! ## Persistence -/

theorem loadFlow_of_parse (host : Host) (st : AppState) (saved : String) (flow : Payload)
    (hget : st.storage.getItem storageKey = some saved) (hne : saved ≠ "")
    (hparse : host.parse saved = some flow) :
    loadFlow host st = { st with nodes := flow.nodes.getD [], edges := flow.edges.getD [] } := by
  simp [loadFlow, hget, hne, hparse]

/-- C10: a stored text that decodes to a payload with a `nodes` list and no
`edges` field makes `loadFlow` set the nodes to that list and the edges to the
empty list; a payload with an `edges` list and no `nodes` field gives an empty
node collection; and with nothing stored under the key `loadFlow` changes
nothing. -/
theorem loadFlow_tolerant (host : Host) (st : AppState) :
    (∀ (saved : String) (ns : List Node), st.storage.getItem storageKey = some saved →
      saved ≠ "" → host.parse saved = some ⟨some ns, none⟩ →
      (loadFlow host st).nodes = ns ∧ (loadFlow host st).edges = []) ∧
    (∀ (saved : String) (es : List Edge), st.storage.getItem storageKey = some saved →
      saved ≠ "" → host.parse saved = some ⟨none, some es⟩ →
      (loadFlow host st).nodes = [] ∧ (loadFlow host st).edges = es) ∧
    (st.storage.getItem storageKey = none → loadFlow host st = st) := by
  refine ⟨fun saved ns hget hne hparse => ?_, fun saved es hget hne hparse => ?_, fun hget => ?_⟩
  · rw [loadFlow_of_parse host st saved _ hget hne hparse]; exact ⟨rfl, rfl⟩
  · rw [loadFlow_of_parse host st saved _ hget hne hparse]; exact ⟨rfl, rfl⟩
  · simp [loadFlow, hget]

/-- Instance of C10: the stored text decodes to the seed nodes without an
`edges` field; loading it in the seed state keeps the nodes and empties the
edges. -/
theorem loadFlow_tolerant_witness :
    (loadFlow (constantHost ⟨some initialNodes, none⟩)
      (initialState [(storageKey, "\x7b\"nodes\":[]\x7d")])).nodes = initialNodes ∧
    (loadFlow (constantHost ⟨some initialNodes, none⟩)
      (initialState [(storageKey, "\x7b\"nodes\":[]\x7d")])).edges = [] :=
  (loadFlow_tolerant (constantHost ⟨some initialNodes, none⟩)
    (initialState [(storageKey, "\x7b\"nodes\":[]\x7d")])).1
    "\x7b\"nodes\":[]\x7d" initialNodes (by simp [initialState, Storage.getItem])
    (by decide) rfl

/-! ## Where the code departs from the stated contract -/

/-- C6: a graph saved after one `addNode` and loaded in the next run of the
program, followed by one `addNode`, holds two nodes with identifier `'3'`:
the counter starts again at 3 while the loaded graph already uses `'3'`. -/
theorem duplicate_id_after_reload (host : Host)
    (hround : host.parse (host.stringify flowAfterFirstAdd)
      = some ⟨some flowAfterFirstAdd.nodes, some flowAfterFirstAdd.edges⟩)
    (hne : host.stringify flowAfterFirstAdd ≠ "") :
    ((session host (session host [] [Action.addNode, Action.saveFlow]).storage
        [Action.loadFlow, Action.addNode]).nodes.map (fun n => n.id)) = ["1", "2", "3", "3"] ∧
    ¬ ((session host (session host [] [Action.addNode, Action.saveFlow]).storage
        [Action.loadFlow, Action.addNode]).nodes.map (fun n => n.id)).Nodup := by
  have hstore : (session host [] [Action.addNode, Action.saveFlow]).storage
      = [(storageKey, host.stringify flowAfterFirstAdd)] := rfl
  have hload : loadFlow host (initialState [(storageKey, host.stringify flowAfterFirstAdd)])
      = { initialState [(storageKey, host.stringify flowAfterFirstAdd)] with
          nodes := flowAfterFirstAdd.nodes, edges := flowAfterFirstAdd.edges } := by
    rw [loadFlow_of_parse host _ _ _ (by simp [initialState, Storage.getItem]) hne hround]
    rfl
  have hids : (session host (session host [] [Action.addNode, Action.saveFlow]).storage
      [Action.loadFlow, Action.addNode]).nodes.map (fun n => n.id) = ["1", "2", "3", "3"] := by
    rw [hstore]
    simp only [session, run, List.foldl_cons, List.foldl_nil, step, hload]
    show List.map (fun n => n.id) (flowAfterFirstAdd.nodes ++ [newNode 3]) = ["1", "2", "3", "3"]
    decide
  rw [hids]
  exact ⟨rfl, by decide⟩

/-- Instance of C6 with a host that prints and reads the saved graph as one fixed text. -/
theorem duplicate_id_after_reload_witness :
    ¬ ((session (singleFlowHost flowAfterFirstAdd "saved")
        (session (singleFlowHost flowAfterFirstAdd "saved") []
          [Action.addNode, Action.saveFlow]).storage
        [Action.loadFlow, Action.addNode]).nodes.map (fun n => n.id)).Nodup :=
  (duplicate_id_after_reload (singleFlowHost flowAfterFirstAdd "saved")
    (by simp [singleFlowHost]) (by simp [singleFlowHost])).2

/-- C9: `addNode` at counter value 3 appends node `'3'` and the edge
`e3-4` from `'3'` to `'4'`, not the edge `e2-3` from `'2'` to `'3'`: the edge
literal is evaluated after the counter has been incremented. In general the
appended edge is the one built from the incremented counter. -/
theorem addNode_edge_reads_incremented_counter :
    (addNode (initialState [])).nodes.map (fun n => n.id) = ["1", "2", "3"] ∧
    (addNode (initialState [])).edges
      = initialEdges ++ [⟨"e3-4", "3", "4", some "default"⟩] ∧
    (addNode (initialState [])).edges
      ≠ initialEdges ++ [⟨"e2-3", "2", "3", some "default"⟩] ∧
    (∀ st : AppState, (addNode st).edges = st.edges ++ [connectingEdge (st.id + 1) st.edgeType]) := by
  refine ⟨by decide, by decide, by decide, fun st => rfl⟩

end ReactFlow
